import Mathlib

/-!
Verification of the `AudioSpectrum` component (src/components/AudioSpectrum.tsx,
shown in src/src/App.tsx of the packaged sources).  The component is shallowly
embedded: the DOM / Web Audio state touched by the component is a record, each
event handler and effect is a pure state transformer, and the browser event loop
is a step function over an event alphabet.  Rationals stand for JS numbers; an
unknown (NaN) media duration is `none`.
-/

/-- One Web Audio analysis graph, as built by the graph-setup effect:
an audio context, an analyser node and a media-element source node.
`binCount` models `analyser.frequencyBinCount`, which the platform fixes to
`fftSize / 2`. -/
structure Graph where
  fftSize : Nat
  binCount : Nat
  sourceConnectedToAnalyser : Bool
  analyserConnectedToDest : Bool
  ctxClosed : Bool
  ctxSuspended : Bool
deriving Repr, DecidableEq

/-- The graph constructed by the setup effect:
`new AudioContext()` (possibly starting suspended, depending on autoplay
policy), `analyser.fftSize = 256`, `source.connect(analyser)`,
`analyser.connect(audioCtx.destination)`. -/
def mkGraph (suspended : Bool) : Graph :=
  { fftSize := 256
    binCount := 256 / 2
    sourceConnectedToAnalyser := true
    analyserConnectedToDest := true
    ctxClosed := false
    ctxSuspended := suspended }

/-- The mutable state of one mounted `AudioSpectrum` instance together with the
observable state of its media element and canvas.
`graphs` lists the analysis graphs currently alive (constructed and not torn
down); `pending` is the id of the scheduled `requestAnimationFrame` callback if
one is pending; `draws` counts completed canvas draw passes; `progressFast` is
`progressRef.current`, `progressDisplay` the React `progress` state;
`dragging` is `seekingRef.current`; `duration = none` models a NaN duration. -/
structure SpectrumState where
  graphs : List Graph
  pending : Option Nat
  nextId : Nat
  draws : Nat
  playCount : Nat
  progressFast : ℚ
  progressDisplay : ℚ
  dragging : Bool
  currentTime : ℚ
  duration : Option ℚ
deriving Repr, DecidableEq

/-- State of a freshly created (not yet mounted) instance. -/
def initState : SpectrumState :=
  { graphs := []
    pending := none
    nextId := 0
    draws := 0
    playCount := 0
    progressFast := 0
    progressDisplay := 0
    dragging := false
    currentTime := 0
    duration := none }

/-- The graph-setup effect body (first `useEffect`): `if (disabled) return;`,
then construct the audio context, analyser (fftSize 256) and media-element
source node and wire source → analyser → destination. -/
def setupEffect (disabled suspended : Bool) (s : SpectrumState) : SpectrumState :=
  if disabled then s
  else { s with graphs := mkGraph suspended :: s.graphs }

/-- Mounting the component: run the setup effect on the initial state. -/
def mount (disabled suspended : Bool) : SpectrumState :=
  setupEffect disabled suspended initState

/-- One execution of the `render` callback body: it first re-schedules itself
via `requestAnimationFrame` (storing the new id in `animationFrameId`) and then
performs one full canvas draw pass. -/
def renderStep (s : SpectrumState) : SpectrumState :=
  { s with pending := some s.nextId, nextId := s.nextId + 1, draws := s.draws + 1 }

/-- The `play` handler: observed whenever a play event fires; the listener body
(resume the context if suspended, then call `render()` synchronously) runs only
when a graph-setup effect has registered it. -/
def handlePlay (s : SpectrumState) : SpectrumState :=
  match s.graphs with
  | [] => { s with playCount := s.playCount + 1 }
  | g :: rest =>
      let g' := if g.ctxSuspended then { g with ctxSuspended := false } else g
      renderStep { s with graphs := g' :: rest, playCount := s.playCount + 1 }

/-- The `pause` / `ended` handler of the graph effect:
`cancelAnimationFrame(animationFrameId)`. Since `render` stores the id of the
frame it just scheduled, the stored id is always the pending one, so the
cancellation clears the pending callback (a no-op when none is pending). -/
def handlePause (s : SpectrumState) : SpectrumState :=
  { s with pending := none }

/-- The browser firing a pending animation-frame callback: runs the `render`
body; nothing happens when no callback is scheduled. -/
def tick (s : SpectrumState) : SpectrumState :=
  match s.pending with
  | none => s
  | some _ => renderStep s

/-- The `handleTime` listener (second `useEffect`), attached to `timeupdate`,
`loadedmetadata` and `ended`: early return when `!audioEl.duration` (NaN or 0)
or `Number.isNaN(audioEl.duration)`, otherwise clamp `currentTime / duration`
to [0,1] and write it to both progress copies. -/
def handleTime (s : SpectrumState) : SpectrumState :=
  match s.duration with
  | none => s
  | some d =>
      if d = 0 then s
      else
        let ratio := min (max (s.currentTime / d) 0) 1
        { s with progressFast := ratio, progressDisplay := ratio }

/-- Media-lifecycle events the mounted component reacts to. -/
inductive MEvent where
  | play
  | pause
  | ended
  | frame
deriving Repr, DecidableEq

/-- Dispatch one event. On `ended` both registered listeners fire in
registration order: `handlePause` from the graph effect, then `handleTime`. -/
def mstep (e : MEvent) (s : SpectrumState) : SpectrumState :=
  match e with
  | .play => handlePlay s
  | .pause => handlePause s
  | .ended => handleTime (handlePause s)
  | .frame => tick s

/-- Process a list of events in order. -/
def msteps (evs : List MEvent) (s : SpectrumState) : SpectrumState :=
  evs.foldl (fun s e => mstep e s) s

/-- The seek ratio of `seekToPointer`:
`Math.min(Math.max((clientX - rect.left) / rect.width, 0), 1)`. -/
def ratioOf (left width clientX : ℚ) : ℚ :=
  min (max ((clientX - left) / width) 0) 1

/-- `seekToPointer`: early return when `!audioEl.duration` (NaN or 0) or
`Number.isNaN(audioEl.duration)`; otherwise set `audioEl.currentTime` to
`ratio * duration` and write the ratio to both progress copies. -/
def seekToPointer (left width clientX : ℚ) (s : SpectrumState) : SpectrumState :=
  match s.duration with
  | none => s
  | some d =>
      if d = 0 then s
      else
        let ratio := ratioOf left width clientX
        { s with currentTime := ratio * d, progressFast := ratio
                 progressDisplay := ratio }

/-- `handlePointerDown`: no-op when disabled; otherwise set the dragging flag,
capture the pointer and seek to the pointer position. -/
def handlePointerDown (disabled : Bool) (left width clientX : ℚ)
    (s : SpectrumState) : SpectrumState :=
  if disabled then s
  else seekToPointer left width clientX { s with dragging := true }

/-- `handlePointerMove`: no-op unless a gesture is active and not disabled. -/
def handlePointerMove (disabled : Bool) (left width clientX : ℚ)
    (s : SpectrumState) : SpectrumState :=
  if !s.dragging || disabled then s
  else seekToPointer left width clientX s

/-- `releasePointerCapture` may throw (e.g. `InvalidPointerId` when capture was
already lost); `throws` selects that outcome. -/
def releasePointerCapture (throws : Bool) : Except String Unit :=
  if throws then Except.error "InvalidPointerId" else Except.ok ()

/-- `handlePointerUp` (also bound to pointer-leave): no-op when disabled;
otherwise clear the dragging flag first, then attempt to release the pointer
capture inside try/catch, swallowing any error. -/
def handlePointerUp (disabled throws : Bool) (s : SpectrumState) : SpectrumState :=
  if disabled then s
  else
    let s' := { s with dragging := false }
    match releasePointerCapture throws with
    | Except.ok _ => s'
    | Except.error _ => s'

/-- `source.disconnect()`: disconnecting is not fallible in Web Audio when
called without arguments. -/
def disconnectSource (g : Graph) : Graph :=
  { g with sourceConnectedToAnalyser := false }

/-- `analyser.disconnect()`. -/
def disconnectAnalyser (g : Graph) : Graph :=
  { g with analyserConnectedToDest := false }

/-- `audioCtx.close()`: throws `InvalidStateError` when the context is already
closed. -/
def closeCtx (g : Graph) : Except String Graph :=
  if g.ctxClosed then Except.error "InvalidStateError"
  else Except.ok { g with ctxClosed := true }

/-- The try/catch block of the effect cleanup applied to one graph:
`try { source.disconnect(); analyser.disconnect(); audioCtx.close(); }
catch { /* ignore */ }` — any failure is swallowed, keeping the state reached
before the failing call. -/
def teardownGraph (g : Graph) : Graph :=
  let g2 := disconnectAnalyser (disconnectSource g)
  match closeCtx g2 with
  | Except.ok g3 => g3
  | Except.error _ => g2

/-- The effect cleanup run on unmount or source change:
`cancelAnimationFrame`, remove the listeners, and tear down the graph with all
failures swallowed. -/
def cleanup (s : SpectrumState) : SpectrumState :=
  { s with pending := none, graphs := s.graphs.map teardownGraph }

/-- Bar opacity used by `render`: `0.6 + (value / 255) * 0.4`. -/
def alphaOf (value : ℚ) : ℚ :=
  3 / 5 + value / 255 * (2 / 5)

/-- One rectangle painted by `render` (`ctx.fillRect(x, y, w, hgt)` at fill
opacity `alpha`). -/
structure Bar where
  x : ℚ
  y : ℚ
  w : ℚ
  hgt : ℚ
  alpha : ℚ
deriving Repr, DecidableEq

/-- The bar-drawing loop of `render`, with running x-position `x`:
`barHeight = value / 255 * h`, `fillRect(x, h - barHeight, barWidth,
barHeight)`, then `x += barWidth + 1`. -/
def barsAux (barWidth h : ℚ) (x : ℚ) : List ℚ → List Bar
  | [] => []
  | v :: rest =>
      let barHeight := v / 255 * h
      { x := x, y := h - barHeight, w := barWidth, hgt := barHeight
        alpha := alphaOf v } :: barsAux barWidth h (x + barWidth + 1) rest

/-- All spectrum bars of one `render` pass on a canvas of width `width` and
height `h`, fed magnitude data `data` (one entry per frequency bin):
`barWidth = width / bufferLength * 1.5` with `bufferLength = data.length`. -/
def renderBars (width h : ℚ) (data : List ℚ) : List Bar :=
  barsAux (width / (data.length : ℚ) * (3 / 2)) h 0 data

/-- The playback-position marker drawn after the bars:
`fillRect(progressFast * width, 0, 2, h)` at opacity 0.9. -/
def markerBar (width h progressFast : ℚ) : Bar :=
  { x := progressFast * width, y := 0, w := 2, hgt := h, alpha := 9 / 10 }

/-- A state owning exactly one fully wired analysis graph: fftSize 256,
128 frequency bins, source connected to the analyser, analyser connected to
the destination, context open (suspended or not). -/
def wiredGraphs (s : SpectrumState) : Prop :=
  ∃ b : Bool, s.graphs
    = [{ fftSize := 256, binCount := 128, sourceConnectedToAnalyser := true
         analyserConnectedToDest := true, ctxClosed := false
         ctxSuspended := b }]

/-- A mounted state whose media element reports a zero (known, non-NaN)
duration, with both progress copies at 1/5. -/
def seekZeroDurState : SpectrumState :=
  { initState with duration := some 0, progressFast := 1 / 5
                   progressDisplay := 1 / 5 }

/-- A mounted state whose media element still reports an unknown (NaN)
duration while both progress copies hold 7/10. -/
def timeUnknownState : SpectrumState :=
  { initState with duration := none, currentTime := 3
                   progressFast := 7 / 10, progressDisplay := 7 / 10 }

/-- A mounted state with a 200 s track at playback position 50 s. -/
def timeScenarioState : SpectrumState :=
  { initState with duration := some 200, currentTime := 50 }

/-! ### Helper lemmas -/

theorem teardownGraph_idem (g : Graph) :
    teardownGraph (teardownGraph g) = teardownGraph g := by
  rcases g with ⟨fft, bin, sc, ac, cc, cs⟩
  cases cc <;>
    simp [teardownGraph, disconnectSource, disconnectAnalyser, closeCtx]

theorem tick_no_pending (s : SpectrumState) (h : s.pending = none) :
    tick s = s := by
  unfold tick
  rw [h]

theorem handleTime_pending (s : SpectrumState) :
    (handleTime s).pending = s.pending := by
  unfold handleTime
  cases s.duration with
  | none => rfl
  | some d =>
      by_cases h : d = 0 <;> simp [h]

theorem msteps_frames_fixed (evs : List MEvent) :
    ∀ s : SpectrumState, s.pending = none →
      (∀ e ∈ evs, e = MEvent.frame) → msteps evs s = s := by
  induction evs with
  | nil => intro s _ _; rfl
  | cons e rest ih =>
      intro s hp he
      have h1 : e = MEvent.frame := he e (by simp)
      subst h1
      show msteps rest (tick s) = s
      rw [tick_no_pending s hp]
      exact ih s hp (fun e he2 => he e (by simp [he2]))

theorem handleTime_graphs (s : SpectrumState) :
    (handleTime s).graphs = s.graphs := by
  unfold handleTime
  cases s.duration with
  | none => rfl
  | some d =>
      by_cases h : d = 0 <;> simp [h]

theorem barsAux_length (bw h : ℚ) (data : List ℚ) :
    ∀ x : ℚ, (barsAux bw h x data).length = data.length := by
  induction data with
  | nil => intro x; rfl
  | cons v rest ih =>
      intro x
      simp [barsAux, ih]

theorem barsAux_map_w (bw h : ℚ) (data : List ℚ) :
    ∀ x : ℚ, (barsAux bw h x data).map Bar.w = List.replicate data.length bw := by
  induction data with
  | nil => intro x; rfl
  | cons v rest ih =>
      intro x
      simp [barsAux, ih, List.replicate_succ]

theorem barsAux_map_hgt (bw h : ℚ) (data : List ℚ) :
    ∀ x : ℚ, (barsAux bw h x data).map Bar.hgt
      = data.map (fun v => v / 255 * h) := by
  induction data with
  | nil => intro x; rfl
  | cons v rest ih =>
      intro x
      simp [barsAux, ih]

theorem barsAux_map_alpha (bw h : ℚ) (data : List ℚ) :
    ∀ x : ℚ, (barsAux bw h x data).map Bar.alpha = data.map alphaOf := by
  induction data with
  | nil => intro x; rfl
  | cons v rest ih =>
      intro x
      simp [barsAux, ih]

theorem barsAux_map_x (bw h : ℚ) (data : List ℚ) :
    ∀ x : ℚ, (barsAux bw h x data).map Bar.x
      = (List.range data.length).map (fun i : ℕ => x + (i : ℚ) * (bw + 1)) := by
  induction data with
  | nil => intro x; rfl
  | cons v rest ih =>
      intro x
      have h1 : (barsAux bw h x (v :: rest)).map Bar.x
          = x :: (barsAux bw h (x + bw + 1) rest).map Bar.x := rfl
      rw [h1, ih (x + bw + 1), List.length_cons, List.range_succ_eq_map,
        List.map_cons, List.map_map]
      refine List.cons_eq_cons.mpr ⟨by norm_num, ?_⟩
      refine List.map_congr_left (fun i _ => ?_)
      simp only [Function.comp_apply, Nat.cast_succ]
      ring

/-! ### Claim theorems -/

/-- C7: when the `disabled` flag is true the component builds no analysis graph
(mounting leaves the graph list empty and the setup effect is the identity) and
every pointer handler — down, move, up/leave — is a no-op on the whole state,
so pointer-down performs no seek, no progress write and no graph
construction. -/
theorem disabled_no_graph_no_seek (susp t : Bool) (s : SpectrumState)
    (l w x : ℚ) :
    (mount true susp).graphs = [] ∧
    setupEffect true susp s = s ∧
    handlePointerDown true l w x s = s ∧
    handlePointerMove true l w x s = s ∧
    handlePointerUp true t s = s := by
  refine ⟨rfl, rfl, rfl, ?_, ?_⟩
  · simp [handlePointerMove]
  · simp [handlePointerUp]

/-- C9: on pointer-up / pointer-leave of a non-disabled instance, the dragging
flag is cleared unconditionally — the resulting state is exactly the input
state with `dragging := false` whether or not `releasePointerCapture` throws —
and in the throwing case the error is swallowed rather than surfaced. -/
theorem pointer_up_clears_dragging (throws : Bool) (s : SpectrumState) :
    (handlePointerUp false throws s).dragging = false ∧
    handlePointerUp false throws s = { s with dragging := false } ∧
    releasePointerCapture true = Except.error "InvalidPointerId" := by
  cases throws <;>
    simp [handlePointerUp, releasePointerCapture]

/-- C6: the effect cleanup never throws (the fallible `close` is caught and
swallowed, as witnessed by `closeCtx` erroring on an already-closed context
while `teardownGraph` still returns the disconnected graph), it is idempotent,
and it leaves no scheduled render callback. -/
theorem cleanup_idempotent_never_throws (s : SpectrumState) (g : Graph) :
    cleanup (cleanup s) = cleanup s ∧
    (cleanup s).pending = none ∧
    teardownGraph (teardownGraph g) = teardownGraph g ∧
    closeCtx { g with ctxClosed := true } = Except.error "InvalidStateError" ∧
    teardownGraph { g with ctxClosed := true } =
      { g with sourceConnectedToAnalyser := false
               analyserConnectedToDest := false
               ctxClosed := true } := by
  refine ⟨?_, rfl, teardownGraph_idem g, rfl, rfl⟩
  have hm : List.map (teardownGraph ∘ teardownGraph) s.graphs
      = List.map teardownGraph s.graphs :=
    List.map_congr_left (fun g2 _ => teardownGraph_idem g2)
  simp only [cleanup, List.map_map, hm]

/-- C10: the fill opacity of every drawn bar is exactly
`0.6 + 0.4 * (value / 255)`: it is bounded by [0.6, 1] for magnitudes in
[0, 255], strictly monotone in the magnitude, 0.6 at magnitude zero, and it is
precisely the opacity `render` assigns to each bar. -/
theorem bar_alpha_formula (v v1 v2 : ℚ) (hv0 : 0 ≤ v) (hv : v ≤ 255)
    (h1 : 0 ≤ v1) (h12 : v1 < v2) (h2 : v2 ≤ 255) :
    alphaOf v = 3 / 5 + 2 / 5 * (v / 255) ∧
    3 / 5 ≤ alphaOf v ∧ alphaOf v ≤ 1 ∧
    alphaOf v1 < alphaOf v2 ∧
    alphaOf 0 = 3 / 5 ∧
    (∀ (W h : ℚ) (data : List ℚ),
      (renderBars W h data).map Bar.alpha = data.map alphaOf) := by
  refine ⟨by unfold alphaOf; ring, ?_, ?_, ?_, by norm_num [alphaOf], ?_⟩
  · unfold alphaOf; nlinarith
  · unfold alphaOf; nlinarith
  · unfold alphaOf; nlinarith
  · intro W h data
    unfold renderBars
    exact barsAux_map_alpha _ h data 0

/-- Witness for `bar_alpha_formula` at magnitudes 51, 0 and 255. -/
theorem bar_alpha_witness :
    alphaOf 51 = 3 / 5 + 2 / 5 * (51 / 255) ∧ 3 / 5 ≤ alphaOf 51 ∧
    alphaOf 51 ≤ 1 ∧ alphaOf 0 < alphaOf 255 := by
  have h := bar_alpha_formula 51 0 255 (by norm_num) (by norm_num)
    (by norm_num) (by norm_num) (by norm_num)
  exact ⟨h.1, h.2.1, h.2.2.1, h.2.2.2.1⟩

/-- C4: one `render` pass on a canvas of width `W` and height `h` with bin data
`data` draws exactly one bar per bin; every bar has width
`W / N * 1.5` (`N = data.length`), bar `i` starts at `i * (barWidth + 1)`
(a 1-pixel gap between consecutive bars), bar heights are `value / 255 * h`;
positions and widths depend only on `(W, N)` — any same-length data yields the
same positions and widths — and the marker is a 2-pixel-wide bar at
`progressFast * W`. -/
theorem render_frame_geometry (W h pf : ℚ) (data data2 : List ℚ) :
    (renderBars W h data).length = data.length ∧
    (renderBars W h data).map Bar.w
      = List.replicate data.length (W / (data.length : ℚ) * (3 / 2)) ∧
    (renderBars W h data).map Bar.x
      = (List.range data.length).map
          (fun i : ℕ => (i : ℚ) * (W / (data.length : ℚ) * (3 / 2) + 1)) ∧
    (renderBars W h data).map Bar.hgt = data.map (fun v => v / 255 * h) ∧
    (data2.length = data.length →
      (renderBars W h data2).map Bar.x = (renderBars W h data).map Bar.x ∧
      (renderBars W h data2).map Bar.w = (renderBars W h data).map Bar.w) ∧
    markerBar W h pf
      = { x := pf * W, y := 0, w := 2, hgt := h, alpha := 9 / 10 } := by
  refine ⟨?_, ?_, ?_, ?_, ?_, rfl⟩
  · unfold renderBars; exact barsAux_length _ h data 0
  · unfold renderBars; exact barsAux_map_w _ h data 0
  · unfold renderBars
    refine (barsAux_map_x _ h data 0).trans ?_
    exact List.map_congr_left (fun i _ => by ring)
  · unfold renderBars; exact barsAux_map_hgt _ h data 0
  · intro hlen
    constructor
    · unfold renderBars
      rw [barsAux_map_x, barsAux_map_x, hlen]
    · unfold renderBars
      rw [barsAux_map_w, barsAux_map_w, hlen]

/-- Witness for `render_frame_geometry` on a 256-wide, 80-high canvas with two
bins, including the same-length data-independence hypothesis. -/
theorem render_frame_geometry_witness :
    (renderBars 256 80 [0, 255]).length = 2 ∧
    (renderBars 256 80 [100, 7]).map Bar.x
      = (renderBars 256 80 [0, 255]).map Bar.x ∧
    (renderBars 256 80 [100, 7]).map Bar.w
      = (renderBars 256 80 [0, 255]).map Bar.w := by
  have h := render_frame_geometry 256 80 (1 / 4) [0, 255] [100, 7]
  have h5 := h.2.2.2.2.1 (by rfl)
  exact ⟨h.1, h5.1, h5.2⟩

/-- C2 (amended): for a pointer seek on a canvas rect `[l, l + w]` with
`w > 0` and a known non-zero duration `d`, the seek ratio is
`clamp((x - l) / w, 0, 1)`; the media time becomes `ratio * d` and both
progress copies become the ratio; `x = l` gives ratio 0, `x = l + w` gives 1,
`x = l - 10` clamps to 0; the seek is a no-op when the duration is unknown
(NaN) — and also when it is zero, which the original claim does not exempt. -/
theorem seek_to_pointer_correct (s : SpectrumState) (l w x d : ℚ)
    (hw : 0 < w) (hd : s.duration = some d) (hd0 : d ≠ 0) :
    (seekToPointer l w x s).currentTime = ratioOf l w x * d ∧
    (seekToPointer l w x s).progressFast = ratioOf l w x ∧
    (seekToPointer l w x s).progressDisplay = ratioOf l w x ∧
    ratioOf l w l = 0 ∧
    ratioOf l w (l + w) = 1 ∧
    ratioOf l w (l - 10) = 0 ∧
    handlePointerDown false l w x s
      = seekToPointer l w x { s with dragging := true } ∧
    (∀ s2 : SpectrumState, s2.duration = none → seekToPointer l w x s2 = s2) ∧
    (∀ s2 : SpectrumState, s2.duration = some 0 → seekToPointer l w x s2 = s2)
    := by
  have hmax : ∀ a : ℚ, a ≤ 0 → min (max a 0) 1 = 0 := by
    intro a ha
    rw [max_eq_right ha, min_eq_left (by norm_num)]
  refine ⟨?_, ?_, ?_, ?_, ?_, ?_, rfl, ?_, ?_⟩
  · simp [seekToPointer, hd, hd0]
  · simp [seekToPointer, hd, hd0]
  · simp [seekToPointer, hd, hd0]
  · unfold ratioOf
    rw [sub_self, zero_div]
    exact hmax 0 le_rfl
  · unfold ratioOf
    rw [add_sub_cancel_left, div_self (ne_of_gt hw)]
    rw [max_eq_left (by norm_num), min_eq_left (by norm_num)]
  · unfold ratioOf
    have hneg : (l - 10 - l) / w ≤ 0 := by
      apply div_nonpos_of_nonpos_of_nonneg
      · linarith
      · linarith
    exact hmax _ hneg
  · intro s2 h2
    simp [seekToPointer, h2]
  · intro s2 h2
    simp [seekToPointer, h2]

/-- Witness for `seek_to_pointer_correct`: canvas rect `[10, 110]`, pointer at
35, duration 200 s — the seek ratio is 1/4 and the media time becomes 50 s. -/
theorem seek_to_pointer_witness :
    (seekToPointer 10 100 35 timeScenarioState).currentTime
      = ratioOf 10 100 35 * 200 ∧
    (seekToPointer 10 100 35 timeScenarioState).progressDisplay
      = ratioOf 10 100 35 ∧
    ratioOf 10 100 35 = 1 / 4 ∧
    ratioOf 10 100 10 = 0 ∧ ratioOf 10 100 (10 + 100) = 1 ∧
    ratioOf 10 100 (10 - 10 : ℚ) = 0 := by
  have h := seek_to_pointer_correct timeScenarioState 10 100 35 200
    (by norm_num) rfl (by norm_num)
  refine ⟨h.1, h.2.2.1, ?_, h.2.2.2.1, h.2.2.2.2.1, h.2.2.2.2.2.1⟩
  unfold ratioOf
  rw [show ((35 : ℚ) - 10) / 100 = 1 / 4 by norm_num]
  rw [max_eq_left (by norm_num), min_eq_left (by norm_num)]

/-- Counterexample to C2 as stated: with a known, numeric duration of 0 the
code performs no seek at all — the progress copies stay at 1/5 — while the
claim (whose no-op exemption covers only unknown / NaN durations) requires
both copies to become the ratio 1/2. -/
theorem seek_zero_duration_cex :
    seekZeroDurState.duration = some 0 ∧
    seekToPointer 0 100 50 seekZeroDurState = seekZeroDurState ∧
    ratioOf 0 100 50 = 1 / 2 ∧
    seekZeroDurState.progressDisplay = 1 / 5 ∧
    ((1 : ℚ) / 5 ≠ 1 / 2) := by
  refine ⟨rfl, rfl, ?_, rfl, by norm_num⟩
  unfold ratioOf
  rw [show ((50 : ℚ) - 0) / 100 = 1 / 2 by norm_num]
  rw [max_eq_left (by norm_num), min_eq_left (by norm_num)]

/-- C3 (amended): when the duration is a known non-zero number `d`, every
`timeupdate` / `loadedmetadata` / `ended` signal writes
`clamp(currentTime / d, 0, 1)` to both progress copies; when the duration is
unknown (NaN) — or zero — the handler is a no-op and writes neither copy,
whereas the original claim says it writes 0 on an unknown duration. -/
theorem handle_time_correct (s : SpectrumState) (d : ℚ)
    (hd : s.duration = some d) (hd0 : d ≠ 0) :
    (handleTime s).progressFast = min (max (s.currentTime / d) 0) 1 ∧
    (handleTime s).progressDisplay = min (max (s.currentTime / d) 0) 1 ∧
    (∀ s2 : SpectrumState, s2.duration = none → handleTime s2 = s2) ∧
    (∀ s2 : SpectrumState, s2.duration = some 0 → handleTime s2 = s2) := by
  refine ⟨?_, ?_, ?_, ?_⟩
  · simp [handleTime, hd, hd0]
  · simp [handleTime, hd, hd0]
  · intro s2 h2
    simp [handleTime, h2]
  · intro s2 h2
    simp [handleTime, h2]

/-- Witness for `handle_time_correct`: duration 200 s, current time 50 s —
both progress copies become 1/4. -/
theorem handle_time_witness :
    (handleTime timeScenarioState).progressFast = 1 / 4 ∧
    (handleTime timeScenarioState).progressDisplay = 1 / 4 := by
  have h := handle_time_correct timeScenarioState 200 rfl (by norm_num)
  have hr : min (max (timeScenarioState.currentTime / 200) 0) 1
      = (1 : ℚ) / 4 := by
    rw [show timeScenarioState.currentTime = 50 from rfl]
    rw [show ((50 : ℚ) / 200) = 1 / 4 by norm_num]
    rw [max_eq_left (by norm_num), min_eq_left (by norm_num)]
  exact ⟨h.1.trans hr, h.2.1.trans hr⟩

/-- Counterexample to C3 as stated: with an unknown (NaN) duration the handler
returns without writing, leaving both progress copies at 7/10, while the claim
requires both copies to be written to ratio 0. -/
theorem handle_time_unknown_duration_cex :
    timeUnknownState.duration = none ∧
    handleTime timeUnknownState = timeUnknownState ∧
    timeUnknownState.progressFast = 7 / 10 ∧
    timeUnknownState.progressDisplay = 7 / 10 ∧
    ((7 : ℚ) / 10 ≠ 0) := by
  exact ⟨rfl, rfl, rfl, rfl, by norm_num⟩

/-- C1 (amended): for a mounted, non-disabled instance the AnalysisGraph —
one context, one analyser with fftSize 256 and 128 bins, one source node,
wired source → analyser → destination — is constructed when the setup effect
runs at mount, before any play event has been observed; the play handler
constructs nothing (it leaves the number of graphs unchanged, merely resuming
the context and starting the render loop). -/
theorem graph_constructed_at_mount (susp : Bool) (s : SpectrumState) :
    mount false susp = { initState with graphs := [mkGraph susp] } ∧
    (mount false susp).playCount = 0 ∧
    (handlePlay s).graphs.length = s.graphs.length ∧
    (mkGraph susp).fftSize = 256 ∧
    (mkGraph susp).binCount = 128 ∧
    (mkGraph susp).sourceConnectedToAnalyser = true ∧
    (mkGraph susp).analyserConnectedToDest = true := by
  refine ⟨rfl, rfl, ?_, rfl, rfl, rfl, rfl⟩
  cases hg : s.graphs with
  | nil => simp [handlePlay, hg]
  | cons g rest => simp [handlePlay, hg, renderStep]

/-- Counterexample to C1 as stated: immediately after mounting a non-disabled
instance, zero play events have been observed yet the analysis graph already
exists — construction happens at mount time, not on the first play trigger. -/
theorem graph_exists_before_first_play_cex :
    (mount false true).playCount = 0 ∧
    (mount false true).graphs ≠ [] ∧
    (mount false true).graphs.length = 1 := by
  refine ⟨rfl, ?_, rfl⟩
  simp [mount, setupEffect, initState]

theorem handleTime_draws (s : SpectrumState) :
    (handleTime s).draws = s.draws := by
  unfold handleTime
  cases s.duration with
  | none => rfl
  | some d =>
      by_cases h : d = 0 <;> simp [h]

theorem msteps_no_play (evs : List MEvent) :
    ∀ s : SpectrumState, s.pending = none →
      (∀ e ∈ evs, e ≠ MEvent.play) →
      (msteps evs s).pending = none ∧ (msteps evs s).draws = s.draws := by
  induction evs with
  | nil => intro s hp _; exact ⟨hp, rfl⟩
  | cons e rest ih =>
      intro s hp he
      have hstep : (mstep e s).pending = none ∧ (mstep e s).draws = s.draws := by
        cases e with
        | play => exact absurd rfl (he _ (by simp))
        | pause => exact ⟨rfl, rfl⟩
        | ended =>
            refine ⟨?_, ?_⟩
            · show (handleTime (handlePause s)).pending = none
              rw [handleTime_pending]
              rfl
            · show (handleTime (handlePause s)).draws = s.draws
              rw [handleTime_draws]
              rfl
        | frame =>
            rw [show mstep MEvent.frame s = tick s from rfl,
              tick_no_pending s hp]
            exact ⟨hp, rfl⟩
      obtain ⟨h1, h2⟩ := ih (mstep e s) hstep.1
        (fun e2 hm => he e2 (by simp [hm]))
      exact ⟨h1, h2.trans hstep.2⟩

/-- C5: after `pause` (or `ended`) fires, no scheduled render callback
survives (`pending = none`); across any sequence of subsequent events that
contains no `play` — animation-frame ticks included — no further canvas draw
occurs and no callback becomes scheduled; a subsequent `play` event schedules
a new callback and performs exactly one immediate draw, restarting the
loop. -/
theorem pause_stops_render_loop (s : SpectrumState) (evs : List MEvent)
    (hevs : ∀ e ∈ evs, e ≠ MEvent.play) (hg : s.graphs ≠ []) :
    (handlePause s).pending = none ∧
    (msteps evs (handlePause s)).pending = none ∧
    (msteps evs (handlePause s)).draws = (handlePause s).draws ∧
    (mstep MEvent.ended s).pending = none ∧
    (msteps evs (mstep MEvent.ended s)).draws = (mstep MEvent.ended s).draws ∧
    (handlePlay s).pending = some s.nextId ∧
    (handlePlay s).draws = s.draws + 1 := by
  have hp1 : (handlePause s).pending = none := rfl
  have he1 : (mstep MEvent.ended s).pending = none := by
    show (handleTime (handlePause s)).pending = none
    rw [handleTime_pending]
    exact hp1
  have hfix := msteps_no_play evs (handlePause s) hp1 hevs
  have hfix2 := msteps_no_play evs (mstep MEvent.ended s) he1 hevs
  refine ⟨hp1, hfix.1, hfix.2, he1, hfix2.2, ?_, ?_⟩
  · cases hgc : s.graphs with
    | nil => exact absurd hgc hg
    | cons g rest => simp [handlePlay, hgc, renderStep]
  · cases hgc : s.graphs with
    | nil => exact absurd hgc hg
    | cons g rest => simp [handlePlay, hgc, renderStep]

/-- Witness for `pause_stops_render_loop`: on a mounted instance, an
animation-frame tick followed by a second pause after the first pause leaves
the draw count unchanged and nothing scheduled, while a play event draws
exactly once. -/
theorem pause_stops_render_loop_witness :
    (msteps [MEvent.frame, MEvent.pause] (handlePause (mount false false))).draws
      = (handlePause (mount false false)).draws ∧
    (msteps [MEvent.frame, MEvent.pause]
      (handlePause (mount false false))).pending = none ∧
    (handlePlay (mount false false)).draws = (mount false false).draws + 1 := by
  have h := pause_stops_render_loop (mount false false)
    [MEvent.frame, MEvent.pause]
    (by
      intro e he hc
      subst hc
      rcases List.mem_cons.mp he with h1 | h2
      · exact MEvent.noConfusion h1
      · rcases List.mem_singleton.mp h2 with h3
        exact MEvent.noConfusion h3)
    (by simp [mount, setupEffect, initState])
  exact ⟨h.2.2.1, h.2.1, h.2.2.2.2.2.2⟩

theorem mstep_wired (e : MEvent) (s : SpectrumState)
    (h : wiredGraphs s) : wiredGraphs (mstep e s) := by
  obtain ⟨b, hb⟩ := h
  cases e with
  | play =>
      refine ⟨false, ?_⟩
      show (handlePlay s).graphs = _
      unfold handlePlay
      rw [hb]
      cases b <;> simp [renderStep]
  | pause => exact ⟨b, by simpa [mstep, handlePause] using hb⟩
  | ended =>
      refine ⟨b, ?_⟩
      rw [show mstep MEvent.ended s = handleTime (handlePause s) from rfl,
        handleTime_graphs]
      simpa [handlePause] using hb
  | frame =>
      refine ⟨b, ?_⟩
      cases hp : s.pending with
      | none => simpa [mstep, tick, hp] using hb
      | some i => simpa [mstep, tick, hp, renderStep] using hb

theorem msteps_wired (evs : List MEvent) :
    ∀ s : SpectrumState, wiredGraphs s → wiredGraphs (msteps evs s) := by
  induction evs with
  | nil => intro s h; exact h
  | cons e rest ih =>
      intro s h
      exact ih (mstep e s) (mstep_wired e s h)

/-- C8: starting from a mounted non-disabled instance, after any sequence of
play / pause / ended / animation-frame events exactly one analysis graph
exists — its analyser still has fftSize 256 and 128 frequency bins and is
still wired source → analyser → destination; play and pause events never
construct a second graph. -/
theorem at_most_one_graph (susp : Bool) (evs : List MEvent) :
    ∃ g : Graph, (msteps evs (mount false susp)).graphs = [g] ∧
      g.fftSize = 256 ∧ g.binCount = 128 ∧
      g.sourceConnectedToAnalyser = true ∧
      g.analyserConnectedToDest = true := by
  have base : wiredGraphs (mount false susp) :=
    ⟨susp, by simp [mount, setupEffect, initState, mkGraph]⟩
  obtain ⟨b, hb⟩ := msteps_wired evs (mount false susp) base
  exact ⟨_, hb, rfl, rfl, rfl, rfl⟩
